import Mathlib

/-!
Shallow embedding of `src/ocr_system/main.py` (the ocr_system repository).

The archive side (`TextExtractor.get_zip_members`, `cleanup_zip_members`,
`extract`) is modelled with the external `zipfile` capability abstracted as
data: opening a container either yields its entry list or raises one of the
container-level exceptions the code catches, and fully streaming one entry
either succeeds (which is the CRC check) or raises one of the per-member
exception types the inner handler catches (`BadZipFile`, `RuntimeError`,
`OSError`, `ValueError`), either before or after the temp file was created.
The temp-file store (`tempfile.NamedTemporaryFile` / `os.remove` /
`os.path.exists`) is modelled as an ideal file system: a counter of fresh
ids and the list of ids currently on disk.

The PDF side (`TextExtractor._profile_pdf_layout`) is modelled with the
external `pdfplumber` capability abstracted as data: opening a document
either raises or yields its metadata mapping and, per page, the width,
height, image boxes, glyph count and word boxes (`None` standing for
`extract_words()` raising).  Python floats are modelled as rationals; the
arithmetic the code performs (sums, max, min, division by a divisor floored
at 1.0) is exact on the inputs the claims quantify over.
-/

namespace OcrSys

/-! ### String helpers: `str.lower`, `in` (substring), `os.path.splitext` -/

/-- `str.lower()` (ASCII; the code only compares ASCII extension and
keyword strings). -/
def strToLower (s : String) : String := String.mk (s.data.map Char.toLower)

/-- Python `pat in s`: `pat` occurs as a contiguous substring of `s`. -/
def hasSubstr (s pat : String) : Bool :=
  (List.range (s.data.length + 1)).any (fun i => pat.data.isPrefixOf (s.data.drop i))

/-- `str.rfind(c)`: index of the last occurrence of `c`, `-1` when absent. -/
def rfind (l : List Char) (c : Char) : Int :=
  ((l.enum.filter (fun p => p.2 == c)).map (fun p => (p.1 : Int))).foldl max (-1)

/-- The extension part of `os.path.splitext(p)` (posix rules): the suffix
from the last dot, provided that dot lies after the last `/` and the
basename before it is not all dots (leading dots never start an
extension). -/
def splitextExt (p : String) : String :=
  let l := p.data
  let sepIndex := rfind l '/'
  let dotIndex := rfind l '.'
  if sepIndex < dotIndex then
    if (List.range l.length).any
        (fun i => decide (sepIndex < (i : Int)) && decide ((i : Int) < dotIndex)
          && (l.getD i '.' != '.')) then
      String.mk (l.drop dotIndex.toNat)
    else ""
  else ""

/-- `TextExtractor._get_extension`: `os.path.splitext(file_path)[1].lower()`. -/
def get_extension (file_path : String) : String := strToLower (splitextExt file_path)

/-- `os.path.basename` (posix): everything after the last `/`. -/
def basename (p : String) : String := String.mk (p.data.drop (rfind p.data '/' + 1).toNat)

/-! ### Types mirroring the dataclasses -/

/-- The `Extensions` enum (a single variant today). -/
inductive Extensions where
  | PDF
deriving DecidableEq, Repr

def Extensions.value : Extensions → String
  | .PDF => ".pdf"

/-- `info.date_time`: the six-tuple zipfile stores for an entry. -/
structure DateTime6 where
  year : Nat
  month : Nat
  day : Nat
  hour : Nat
  minute : Nat
  second : Nat
deriving DecidableEq, Repr

/-- What happens when one archive entry is opened and fully streamed to its
temp file.  A full successful read is the CRC check.  The two failure
constructors are the per-member exceptions the inner handler catches,
split by whether `tempfile.NamedTemporaryFile` had already created the
temp file (`zf.open` raising before any bytes are copied, versus a
CRC/read error part-way through the copy). -/
inductive ReadOutcome where
  | ok
  | failBeforeTemp (msg : String)
  | failDuringCopy (msg : String)
deriving DecidableEq, Repr

/-- One non-abstract `ZipInfo` entry of the container, together with the
behaviour the external capability exhibits when the entry is streamed. -/
structure ZipEntry where
  filename : String
  isDir : Bool
  file_size : Nat
  compress_size : Nat
  date_time : DateTime6 := ⟨1980, 1, 1, 0, 0, 0⟩
  crc : Nat
  read : ReadOutcome
deriving DecidableEq, Repr

/-- Opening the container (`zipfile.ZipFile(zip_path, "r")` plus the
`infolist()` enumeration): either the entry list, or one of the
container-level exceptions the outer handlers catch. -/
inductive ZipOpenResult where
  | ok (infolist : List ZipEntry)
  | badZipFile
  | largeZipFile (msg : String)
  | unexpected (msg : String)
deriving DecidableEq, Repr

/-- The `ZipMember` dataclass.  `temp_path` holds the ideal-file-system id
of the member's temp file. -/
structure ZipMember where
  name : String
  size : Nat
  compress_size : Nat
  modified : DateTime6
  crc : Nat
  crc_ok : Bool := false
  error : Option String := none
  temp_path : Option Nat := none
deriving DecidableEq, Repr

/-- The `ZipData` dataclass. -/
structure ZipData where
  ok_files : List String := []
  bad_files : List String := []
  ok_files_count : Nat := 0
  bad_files_count : Nat := 0
  errors : List String := []
  ok_members : List ZipMember := []
  bad_members : List ZipMember := []
deriving DecidableEq, Repr

/-- The `ExtractData` dataclass. -/
structure ExtractData where
  text_data : Option String := none
  info : List String := []
  warning : List String := []
  error : List String := []
deriving DecidableEq, Repr

/-! ### The ideal temp-file store -/

/-- The temp directory as the model sees it: a fresh-id counter and the ids
currently on disk. -/
structure FS where
  nextId : Nat := 0
  existing : List Nat := []
deriving DecidableEq, Repr

/-- `tempfile.NamedTemporaryFile(delete=False, ...)`: a fresh path, created
on disk. -/
def fsCreate (st : FS) : Nat × FS :=
  (st.nextId, ⟨st.nextId + 1, st.existing ++ [st.nextId]⟩)

/-- `os.remove` guarded by `os.path.exists` (removal of an absent file is a
no-op; removal errors are swallowed by the code). -/
def fsRemove (st : FS) (t : Nat) : FS :=
  ⟨st.nextId, st.existing.filter (fun i => i != t)⟩

/-- Well-formedness of the store: every id on disk was allocated. -/
def FS.WF (st : FS) : Prop := ∀ i ∈ st.existing, i < st.nextId

/-! ### `TextExtractor` -/

/-- The `TextExtractor` object: its configuration fields. -/
structure TextExtractor where
  valid_extensions : List String
  zip_password : Option String := none
  temp_dir : Option String := none
deriving DecidableEq, Repr

/-- `TextExtractor.__init__`: lower-cases the accepted extensions
(`{e.value.lower() for e in (extensions or {Extensions.PDF})}`; a `None`
or empty iterable falls back to `{Extensions.PDF}` by Python truthiness). -/
def mkTextExtractor (extensions : Option (List Extensions)) (temp_dir : Option String) :
    TextExtractor :=
  let exts := match extensions with
    | none => [Extensions.PDF]
    | some [] => [Extensions.PDF]
    | some l => l
  { valid_extensions := (exts.map (fun e => strToLower e.value)).dedup, temp_dir := temp_dir }

/-- `TextExtractor._is_valid_member`. -/
def TextExtractor.is_valid_member (self : TextExtractor) (name : String) : Bool :=
  self.valid_extensions.contains (get_extension name)

/-- The member-level diagnostic appended to `zd.errors` in the inner
`except` handler: an encryption-flavoured message for texts mentioning
"password" or "decrypt", the raw text otherwise. -/
def memberErrorString (name msg : String) : String :=
  if hasSubstr (strToLower msg) "password" || hasSubstr (strToLower msg) "decrypt" then
    name ++ ": Encrypted entry (wrong/missing password)."
  else
    name ++ ": " ++ msg

/-- The `ZipMember` built at the top of the loop body from one entry. -/
def mkMember (info : ZipEntry) : ZipMember :=
  { name := info.filename, size := info.file_size, compress_size := info.compress_size,
    modified := info.date_time, crc := info.crc }

/-- One iteration of the member loop of `get_zip_members`: stream the entry
to a fresh temp file; on success mark `crc_ok` and keep the temp path; on
failure record the member as bad, append its diagnostic to `zd.errors`,
and remove the partial temp file if one was created. -/
def processOne (zd : ZipData) (st : FS) (info : ZipEntry) : ZipData × FS :=
  match info.read with
  | .ok =>
    let c := fsCreate st
    let member := { mkMember info with crc_ok := true, temp_path := some c.1 }
    ({ zd with ok_members := zd.ok_members ++ [member],
               ok_files := zd.ok_files ++ [member.name] }, c.2)
  | .failBeforeTemp msg =>
    let member := { mkMember info with error := some msg }
    ({ zd with bad_members := zd.bad_members ++ [member],
               bad_files := zd.bad_files ++ [member.name],
               errors := zd.errors ++ [memberErrorString member.name msg] }, st)
  | .failDuringCopy msg =>
    let c := fsCreate st
    let member := { mkMember info with error := some msg }
    ({ zd with bad_members := zd.bad_members ++ [member],
               bad_files := zd.bad_files ++ [member.name],
               errors := zd.errors ++ [memberErrorString member.name msg] },
     fsRemove c.2 c.1)

/-- The member loop of `get_zip_members`, in archive listing order. -/
def processCandidates : ZipData → FS → List ZipEntry → ZipData × FS
  | zd, st, [] => (zd, st)
  | zd, st, info :: rest =>
    let r := processOne zd st info
    processCandidates r.1 r.2 rest

/-- `TextExtractor.get_zip_members`. -/
def get_zip_members (self : TextExtractor) (z : ZipOpenResult) (st : FS) : ZipData × FS :=
  match z with
  | .ok infolist =>
    let entries := infolist.filter (fun i => !i.isDir)
    if entries.isEmpty then ({}, st)
    else
      let candidates := entries.filter (fun i => self.is_valid_member i.filename)
      if candidates.isEmpty then ({}, st)
      else
        let r := processCandidates {} st candidates
        ({ r.1 with ok_files_count := r.1.ok_files.length,
                    bad_files_count := r.1.bad_files.length }, r.2)
  | .badZipFile => ({ errors := ["Not a ZIP file or file is severely corrupted."] }, st)
  | .largeZipFile msg => ({ errors := ["ZIP too large or ZIP64 issue: " ++ msg] }, st)
  | .unexpected msg => ({ errors := ["Unexpected error: " ++ msg] }, st)

/-- `TextExtractor.cleanup_zip_members`: delete every member temp file (ok
and bad), swallowing deletion issues. -/
def cleanup_zip_members (zd : ZipData) (st : FS) : FS :=
  (zd.ok_members ++ zd.bad_members).foldl
    (fun s m => match m.temp_path with
      | some t => fsRemove s t
      | none => s) st

/-- An abbreviated rendering of the `valid_extensions` set for the
unsupported-extension diagnostic (the Python f-string prints the set). -/
def extSetRepr (l : List String) : String := String.intercalate ", " l

/-- `TextExtractor.extract`.  `path_exists` stands for
`os.path.exists(file_path)` and `z` for the behaviour of the zipfile
capability at `file_path` (consulted only on the `.zip` branch).  The
per-member profiling loop only prints; it does not touch `extract_data`.
The `finally` block runs `cleanup_zip_members` on every exit path (with an
empty `ZipData` on the non-archive paths). -/
def extract (self : TextExtractor) (file_path : String) (path_exists : Bool)
    (z : ZipOpenResult) (st : FS) : ExtractData × FS :=
  if path_exists = false then
    ({ error := ["could not find file on path " ++ file_path] }, cleanup_zip_members {} st)
  else if get_extension file_path = ".zip" then
    let r := get_zip_members self z st
    ({}, cleanup_zip_members r.1 r.2)
  else if self.is_valid_member file_path = false then
    ({ error := ["file doesn't have valid extension. Got " ++ get_extension file_path
          ++ " > expected " ++ extSetRepr self.valid_extensions] },
     cleanup_zip_members {} st)
  else
    ({}, cleanup_zip_members {} st)

/-! ### The PDF layout profiler -/

/-- `IMG_RATIO_SCANNED = 0.75`. -/
def IMG_RATIO_SCANNED : ℚ := 0.75

/-- `CHAR_MIN_FOR_TEXT = 50`. -/
def CHAR_MIN_FOR_TEXT : Nat := 50

/-- `TEXT_AREA_MIN_RATIO = 0.02`. -/
def TEXT_AREA_MIN_RATIO : ℚ := 0.02

/-- One entry of `page.images`: the `x0, y0, x1, y1` box. -/
structure ImageBox where
  x0 : ℚ
  y0 : ℚ
  x1 : ℚ
  y1 : ℚ
deriving DecidableEq, Repr

/-- One entry of `page.extract_words()`: the `x0, x1, top, bottom` box. -/
structure WordBox where
  x0 : ℚ
  x1 : ℚ
  top : ℚ
  bottom : ℚ
deriving DecidableEq, Repr

/-- What the pdfplumber capability exposes for one page.  `chars` is the
length of `page.chars` (the only thing the code reads from it); `words` is
`some` of the list `page.extract_words() or []` returns, and `none` when
`extract_words()` raises (the code then uses `[]`). -/
structure PageInput where
  width : ℚ
  height : ℚ
  images : List ImageBox
  chars : Nat
  words : Option (List WordBox)
deriving DecidableEq, Repr

/-- The `PdfPageStats` dataclass. -/
structure PdfPageStats where
  index : Nat
  width : ℚ
  height : ℚ
  image_area_ratio : ℚ
  text_chars : Nat
  text_words : Nat
  text_area_ratio : ℚ
  has_text : Bool
  has_images : Bool
  image_dominant : Bool
  text_dominant : Bool
deriving DecidableEq, Repr

/-- The `PdfLayoutProfile` dataclass. -/
structure PdfLayoutProfile where
  file_name : Option String
  readable : Bool
  pages : Nat
  error : Option String := none
  metadata : List (String × String) := []
  pages_image_dominant : Nat := 0
  pages_text_dominant : Nat := 0
  pages_mixed : Int := 0
  recommended : String := "hybrid"
  rationale : String := ""
  page_stats : List PdfPageStats := []
deriving DecidableEq, Repr

/-- Opening the document (`pdfplumber.open(path)` and walking its
structure): either metadata plus the per-page inputs, or the text of the
exception the `except` handler catches. -/
inductive PdfOpenResult where
  | ok (metadata : List (String × String)) (pages : List PageInput)
  | failure (msg : String)
deriving DecidableEq, Repr

/-- The per-page body of the `for idx, pg in enumerate(pdf.pages)` loop:
box-area sums with `max(..., 0.0)` per side, a page-area divisor floored
at `1.0`, ratios clamped by `min(..., 1.0)`, and the derived flags. -/
def pageStats (idx : Nat) (pg : PageInput) : PdfPageStats :=
  let W := pg.width
  let H := pg.height
  let page_area : ℚ := max (W * H) 1
  let img_area : ℚ :=
    (pg.images.map (fun im => max (im.x1 - im.x0) 0 * max (im.y1 - im.y0) 0)).sum
  let image_area_ratio : ℚ := min (img_area / page_area) 1
  let text_chars := pg.chars
  let words := match pg.words with
    | some l => l
    | none => []
  let word_area : ℚ :=
    (words.map (fun w => max (w.x1 - w.x0) 0 * max (w.bottom - w.top) 0)).sum
  let text_area_ratio : ℚ := min (word_area / page_area) 1
  let has_images : Bool := decide (image_area_ratio > 0)
  let has_text : Bool :=
    decide (text_chars ≥ CHAR_MIN_FOR_TEXT) || decide (text_area_ratio ≥ TEXT_AREA_MIN_RATIO)
  let image_dominant : Bool := decide (image_area_ratio ≥ IMG_RATIO_SCANNED)
  let text_dominant : Bool :=
    decide (text_area_ratio ≥ TEXT_AREA_MIN_RATIO) && !image_dominant
  { index := idx, width := W, height := H, image_area_ratio := image_area_ratio,
    text_chars := text_chars, text_words := words.length, text_area_ratio := text_area_ratio,
    has_text := has_text, has_images := has_images,
    image_dominant := image_dominant, text_dominant := text_dominant }

/-- The per-page stats of a document, in page order. -/
def page_stats_of (pgs : List PageInput) : List PdfPageStats :=
  pgs.enum.map (fun p => pageStats p.1 p.2)

/-- `img_dom = sum(1 for s in profile.page_stats if s.image_dominant)`. -/
def img_dom_count (pgs : List PageInput) : Nat :=
  ((page_stats_of pgs).filter (fun s => s.image_dominant)).length

/-- `txt_dom = sum(1 for s in profile.page_stats if s.text_dominant)`. -/
def txt_dom_count (pgs : List PageInput) : Nat :=
  ((page_stats_of pgs).filter (fun s => s.text_dominant)).length

/-- `mixed = n_pages - (img_dom + txt_dom)` (Python integer arithmetic). -/
def mixed_count (pgs : List PageInput) : Int :=
  (pgs.length : Int) - ((img_dom_count pgs : Int) + (txt_dom_count pgs : Int))

/-- The recommendation block guarded by `if n_pages > 0`: the
`(recommended, rationale)` pair, starting from the dataclass defaults
`("hybrid", "")`.  `int(IMG_RATIO_SCANNED * 100)` is 75. -/
def classify (img_dom txt_dom : Nat) (mixed : Int) (n_pages : Nat) : String × String :=
  if n_pages > 0 then
    if (img_dom : ℚ) / (n_pages : ℚ) ≥ 0.60 then
      ("ocr", s!"{img_dom}/{n_pages} pages are image-dominant (≥75% image area).")
    else if (txt_dom : ℚ) / (n_pages : ℚ) ≥ 0.90 then
      ("pdfplumber", s!"{txt_dom}/{n_pages} pages have sufficient text density.")
    else
      ("hybrid", s!"Mixed content: image-dominant={img_dom}, text-dominant={txt_dom}, mixed={mixed}.")
  else ("hybrid", "")

/-- The rationale sentence the Producer override appends. -/
def scannerNote : String := " Producer suggests a scanner; using hybrid for safety."

/-- `producer = (profile.metadata.get("Producer") or "").lower()`. -/
def producerOf (md : List (String × String)) : String :=
  strToLower ((md.lookup "Producer").getD "")

/-- The post-adjustment: `if "scan" in producer and profile.recommended ==
"pdfplumber":` switch to hybrid and append the scanner note. -/
def producer_adjust (producer : String) (rr : String × String) : String × String :=
  if hasSubstr producer "scan" && rr.1 == "pdfplumber" then
    ("hybrid", rr.2 ++ scannerNote)
  else rr

/-- Python truthiness of an optional string (`None` and `""` are falsy). -/
def strOptTruthy : Option String → Bool
  | none => false
  | some s => !(s == "")

/-- `TextExtractor._profile_pdf_layout`.  `path` plays the part of the
`Optional[str]` argument; `res` is the behaviour of the pdfplumber
capability at that path (consulted only once the path is truthy). -/
def profile_pdf_layout (path : Option String) (original_name : Option String)
    (res : PdfOpenResult) : PdfLayoutProfile :=
  let name : Option String :=
    if strOptTruthy original_name then original_name
    else if strOptTruthy path then some (basename (path.getD "")) else none
  if !strOptTruthy path then
    { file_name := name, readable := false, pages := 0, error := some "no input provided" }
  else
    match res with
    | .failure msg => { file_name := name, readable := false, pages := 0, error := some msg }
    | .ok md pgs =>
      let n_pages := pgs.length
      let rr := producer_adjust (producerOf md)
        (classify (img_dom_count pgs) (txt_dom_count pgs) (mixed_count pgs) n_pages)
      { file_name := name, readable := true, pages := n_pages, metadata := md,
        pages_image_dominant := img_dom_count pgs,
        pages_text_dominant := txt_dom_count pgs,
        pages_mixed := mixed_count pgs,
        recommended := rr.1, rationale := rr.2,
        page_stats := page_stats_of pgs }

/-! ### Helper lemmas about the member loop -/

/-- Whether streaming this entry succeeds (the entry lands in `ok`). -/
def entryReadOk (i : ZipEntry) : Bool :=
  match i.read with
  | .ok => true
  | .failBeforeTemp _ => false
  | .failDuringCopy _ => false

/-- The scan-level error string a failing entry contributes, `none` for a
succeeding one. -/
def entryErrorString (i : ZipEntry) : Option String :=
  match i.read with
  | .ok => none
  | .failBeforeTemp msg => some (memberErrorString i.filename msg)
  | .failDuringCopy msg => some (memberErrorString i.filename msg)

theorem processCandidates_ok_names (infos : List ZipEntry) : ∀ (zd : ZipData) (st : FS),
    (processCandidates zd st infos).1.ok_members.map (fun m => m.name) =
      zd.ok_members.map (fun m => m.name) ++
        (infos.filter entryReadOk).map (fun i => i.filename) := by
  induction infos with
  | nil => intro zd st; simp [processCandidates]
  | cons info rest ih =>
    intro zd st
    cases hr : info.read with
    | ok =>
      simp [processCandidates, processOne, hr, entryReadOk, ih, mkMember]
    | failBeforeTemp msg =>
      simp [processCandidates, processOne, hr, entryReadOk, ih]
    | failDuringCopy msg =>
      simp [processCandidates, processOne, hr, entryReadOk, ih]

theorem processCandidates_bad_names (infos : List ZipEntry) : ∀ (zd : ZipData) (st : FS),
    (processCandidates zd st infos).1.bad_members.map (fun m => m.name) =
      zd.bad_members.map (fun m => m.name) ++
        (infos.filter (fun i => !entryReadOk i)).map (fun i => i.filename) := by
  induction infos with
  | nil => intro zd st; simp [processCandidates]
  | cons info rest ih =>
    intro zd st
    cases hr : info.read with
    | ok =>
      simp [processCandidates, processOne, hr, entryReadOk, ih]
    | failBeforeTemp msg =>
      simp [processCandidates, processOne, hr, entryReadOk, ih, mkMember]
    | failDuringCopy msg =>
      simp [processCandidates, processOne, hr, entryReadOk, ih, mkMember]

theorem processCandidates_ok_files (infos : List ZipEntry) : ∀ (zd : ZipData) (st : FS),
    (processCandidates zd st infos).1.ok_files =
      zd.ok_files ++ (infos.filter entryReadOk).map (fun i => i.filename) := by
  induction infos with
  | nil => intro zd st; simp [processCandidates]
  | cons info rest ih =>
    intro zd st
    cases hr : info.read with
    | ok => simp [processCandidates, processOne, hr, entryReadOk, ih, mkMember]
    | failBeforeTemp msg => simp [processCandidates, processOne, hr, entryReadOk, ih]
    | failDuringCopy msg => simp [processCandidates, processOne, hr, entryReadOk, ih]

theorem processCandidates_bad_files (infos : List ZipEntry) : ∀ (zd : ZipData) (st : FS),
    (processCandidates zd st infos).1.bad_files =
      zd.bad_files ++ (infos.filter (fun i => !entryReadOk i)).map (fun i => i.filename) := by
  induction infos with
  | nil => intro zd st; simp [processCandidates]
  | cons info rest ih =>
    intro zd st
    cases hr : info.read with
    | ok => simp [processCandidates, processOne, hr, entryReadOk, ih]
    | failBeforeTemp msg => simp [processCandidates, processOne, hr, entryReadOk, ih, mkMember]
    | failDuringCopy msg => simp [processCandidates, processOne, hr, entryReadOk, ih, mkMember]

theorem processCandidates_errors (infos : List ZipEntry) : ∀ (zd : ZipData) (st : FS),
    (processCandidates zd st infos).1.errors =
      zd.errors ++ infos.filterMap entryErrorString := by
  induction infos with
  | nil => intro zd st; simp [processCandidates]
  | cons info rest ih =>
    intro zd st
    cases hr : info.read with
    | ok => simp [processCandidates, processOne, hr, entryErrorString, ih]
    | failBeforeTemp msg =>
      simp [processCandidates, processOne, hr, entryErrorString, ih, mkMember]
    | failDuringCopy msg =>
      simp [processCandidates, processOne, hr, entryErrorString, ih, mkMember]

theorem processCandidates_ok_mem (infos : List ZipEntry) : ∀ (zd : ZipData) (st : FS),
    ∀ m ∈ (processCandidates zd st infos).1.ok_members,
      m ∈ zd.ok_members ∨
        (m.crc_ok = true ∧ m.error = none ∧ ∃ t, m.temp_path = some t) := by
  induction infos with
  | nil => intro zd st m hm; exact Or.inl hm
  | cons info rest ih =>
    intro zd st m hm
    cases hr : info.read with
    | ok =>
      simp only [processCandidates, processOne, hr] at hm
      rcases ih _ _ m hm with h | h
      · have h' : m ∈ zd.ok_members ++
            [{ mkMember info with crc_ok := true, temp_path := some (fsCreate st).1 }] := h
        rcases List.mem_append.mp h' with h'' | h''
        · exact Or.inl h''
        · refine Or.inr ?_
          rcases List.mem_singleton.mp h'' with rfl
          exact ⟨rfl, rfl, _, rfl⟩
      · exact Or.inr h
    | failBeforeTemp msg =>
      simp only [processCandidates, processOne, hr] at hm
      rcases ih _ _ m hm with h | h
      · exact Or.inl h
      · exact Or.inr h
    | failDuringCopy msg =>
      simp only [processCandidates, processOne, hr] at hm
      rcases ih _ _ m hm with h | h
      · exact Or.inl h
      · exact Or.inr h

theorem processCandidates_bad_mem (infos : List ZipEntry) : ∀ (zd : ZipData) (st : FS),
    ∀ m ∈ (processCandidates zd st infos).1.bad_members,
      m ∈ zd.bad_members ∨
        (m.crc_ok = false ∧ m.temp_path = none ∧ ∃ msg, m.error = some msg) := by
  induction infos with
  | nil => intro zd st m hm; exact Or.inl hm
  | cons info rest ih =>
    intro zd st m hm
    cases hr : info.read with
    | ok =>
      simp only [processCandidates, processOne, hr] at hm
      rcases ih _ _ m hm with h | h
      · exact Or.inl h
      · exact Or.inr h
    | failBeforeTemp msg =>
      simp only [processCandidates, processOne, hr] at hm
      rcases ih _ _ m hm with h | h
      · have h' : m ∈ zd.bad_members ++ [{ mkMember info with error := some msg }] := h
        rcases List.mem_append.mp h' with h'' | h''
        · exact Or.inl h''
        · refine Or.inr ?_
          rcases List.mem_singleton.mp h'' with rfl
          exact ⟨rfl, rfl, msg, rfl⟩
      · exact Or.inr h
    | failDuringCopy msg =>
      simp only [processCandidates, processOne, hr] at hm
      rcases ih _ _ m hm with h | h
      · have h' : m ∈ zd.bad_members ++ [{ mkMember info with error := some msg }] := h
        rcases List.mem_append.mp h' with h'' | h''
        · exact Or.inl h''
        · refine Or.inr ?_
          rcases List.mem_singleton.mp h'' with rfl
          exact ⟨rfl, rfl, msg, rfl⟩
      · exact Or.inr h

/-- Removing the id just created from a well-formed store restores it. -/
theorem fsRemove_fresh (st : FS) (h : st.WF) :
    (st.existing ++ [st.nextId]).filter (fun i => i != st.nextId) = st.existing := by
  rw [List.filter_append]
  have h1 : st.existing.filter (fun i => i != st.nextId) = st.existing :=
    List.filter_eq_self.mpr (fun a ha => bne_iff_ne.mpr (Nat.ne_of_lt (h a ha)))
  have h2 : [st.nextId].filter (fun i => i != st.nextId) = [] := by simp
  rw [h1, h2, List.append_nil]

/-- The member loop grows the store by exactly the verified members' temp
files: nothing else is left on disk, and the store stays well-formed. -/
theorem processCandidates_fs (infos : List ZipEntry) : ∀ (zd : ZipData) (st : FS), st.WF →
    ∃ okNew : List ZipMember,
      (processCandidates zd st infos).1.ok_members = zd.ok_members ++ okNew ∧
      (processCandidates zd st infos).2.existing =
        st.existing ++ okNew.filterMap (fun m => m.temp_path) ∧
      (processCandidates zd st infos).2.WF := by
  induction infos with
  | nil =>
    intro zd st hwf
    exact ⟨[], by simp [processCandidates], by simp [processCandidates], by
      simpa [processCandidates] using hwf⟩
  | cons info rest ih =>
    intro zd st hwf
    cases hr : info.read with
    | ok =>
      have hwf1 : FS.WF ⟨st.nextId + 1, st.existing ++ [st.nextId]⟩ := by
        intro i hi
        rcases List.mem_append.mp hi with h | h
        · exact Nat.lt_succ_of_lt (hwf i h)
        · rcases List.mem_singleton.mp h with rfl
          exact Nat.lt_succ_self _
      obtain ⟨okNew', h1, h2, h3⟩ := ih
        { zd with
            ok_members := zd.ok_members ++
              [{ mkMember info with crc_ok := true, temp_path := some st.nextId }],
            ok_files := zd.ok_files ++ [(mkMember info).name] }
        ⟨st.nextId + 1, st.existing ++ [st.nextId]⟩ hwf1
      refine ⟨{ mkMember info with crc_ok := true, temp_path := some st.nextId } :: okNew',
        ?_, ?_, ?_⟩
      · simpa [processCandidates, processOne, hr, fsCreate, List.append_assoc] using h1
      · simpa [processCandidates, processOne, hr, fsCreate, List.append_assoc] using h2
      · simpa [processCandidates, processOne, hr, fsCreate] using h3
    | failBeforeTemp msg =>
      obtain ⟨okNew', h1, h2, h3⟩ := ih
        { zd with
            bad_members := zd.bad_members ++ [{ mkMember info with error := some msg }],
            bad_files := zd.bad_files ++ [(mkMember info).name],
            errors := zd.errors ++ [memberErrorString (mkMember info).name msg] }
        st hwf
      refine ⟨okNew', ?_, ?_, ?_⟩
      · simpa [processCandidates, processOne, hr] using h1
      · simpa [processCandidates, processOne, hr] using h2
      · simpa [processCandidates, processOne, hr] using h3
    | failDuringCopy msg =>
      have hst2 : fsRemove (fsCreate st).2 (fsCreate st).1 = ⟨st.nextId + 1, st.existing⟩ := by
        simp only [fsCreate, fsRemove]
        exact congrArg _ (fsRemove_fresh st hwf)
      have hwf2 : FS.WF ⟨st.nextId + 1, st.existing⟩ :=
        fun i hi => Nat.lt_succ_of_lt (hwf i hi)
      obtain ⟨okNew', h1, h2, h3⟩ := ih
        { zd with
            bad_members := zd.bad_members ++ [{ mkMember info with error := some msg }],
            bad_files := zd.bad_files ++ [(mkMember info).name],
            errors := zd.errors ++ [memberErrorString (mkMember info).name msg] }
        ⟨st.nextId + 1, st.existing⟩ hwf2
      refine ⟨okNew', ?_, ?_, ?_⟩
      · simpa [processCandidates, processOne, hr, hst2] using h1
      · simpa [processCandidates, processOne, hr, hst2] using h2
      · simpa [processCandidates, processOne, hr, hst2] using h3

/-! ### Helper lemmas about the page profile arithmetic -/

/-- A sum of per-box areas, each side floored at `0`, is nonnegative. -/
theorem boxSum_nonneg {α : Type} (l : List α) (f g : α → ℚ) :
    0 ≤ (l.map (fun a => max (f a) 0 * max (g a) 0)).sum := by
  apply List.sum_nonneg
  intro x hx
  obtain ⟨a, _, rfl⟩ := List.mem_map.mp hx
  exact mul_nonneg (le_max_right _ _) (le_max_right _ _)

/-- A clamped ratio of a nonnegative numerator over a positive denominator
lies in the unit interval. -/
theorem clamped_ratio_unit (num den : ℚ) (hnum : 0 ≤ num) (hden : 0 < den) :
    0 ≤ min (num / den) 1 ∧ min (num / den) 1 ≤ 1 :=
  ⟨le_min (div_nonneg hnum hden.le) zero_le_one, min_le_right _ _⟩

/-- The page-area divisor `max(W * H, 1.0)` is positive. -/
theorem page_area_pos (W H : ℚ) : 0 < max (W * H) 1 :=
  lt_of_lt_of_le one_pos (le_max_right _ _)

/-! ### Claim theorems -/

/-- **C5.** For every page of a readable document: `image_dominant` holds
iff `image_area_ratio ≥ 0.75`; `text_dominant` holds iff
`text_area_ratio ≥ 0.02` and `image_dominant` is false (so no page is both
image-dominant and text-dominant); and `has_text` holds iff
`text_chars ≥ 50` or `text_area_ratio ≥ 0.02`. -/
theorem page_dominance_invariants (idx : Nat) (pg : PageInput) :
    ((pageStats idx pg).image_dominant = true ↔
        (pageStats idx pg).image_area_ratio ≥ (0.75 : ℚ)) ∧
    ((pageStats idx pg).text_dominant = true ↔
        ((pageStats idx pg).text_area_ratio ≥ (0.02 : ℚ) ∧
          (pageStats idx pg).image_dominant = false)) ∧
    (¬ ((pageStats idx pg).image_dominant = true ∧
        (pageStats idx pg).text_dominant = true)) ∧
    ((pageStats idx pg).has_text = true ↔
        ((pageStats idx pg).text_chars ≥ 50 ∨
          (pageStats idx pg).text_area_ratio ≥ (0.02 : ℚ))) := by
  simp only [pageStats, IMG_RATIO_SCANNED, CHAR_MIN_FOR_TEXT, TEXT_AREA_MIN_RATIO,
    Bool.and_eq_true, Bool.not_eq_true', Bool.or_eq_true, decide_eq_true_eq,
    decide_eq_false_iff_not, ge_iff_le]
  tauto

/-- **C8.** For every page, `image_area_ratio` and `text_area_ratio` lie in
`[0, 1]`, even when image or word boxes exceed the page bounds: each box
contributes `max(x1 - x0, 0) * max(extent, 0)` area, the page-area divisor
is floored at `1.0`, and each ratio is clamped to at most `1.0`. -/
theorem page_ratios_unit_interval (idx : Nat) (pg : PageInput) :
    (0 ≤ (pageStats idx pg).image_area_ratio ∧ (pageStats idx pg).image_area_ratio ≤ 1) ∧
    (0 ≤ (pageStats idx pg).text_area_ratio ∧ (pageStats idx pg).text_area_ratio ≤ 1) := by
  simp only [pageStats]
  constructor
  · exact clamped_ratio_unit _ _ (boxSum_nonneg pg.images _ _)
      (page_area_pos pg.width pg.height)
  · exact clamped_ratio_unit _ _ (boxSum_nonneg _ _ _) (page_area_pos pg.width pg.height)

/-- A page whose single embedded image has a zero-width (degenerate)
bounding box. -/
def degenImagePage : PageInput :=
  { width := 10, height := 10, images := [{ x0 := 3, y0 := 2, x1 := 3, y1 := 9 }],
    chars := 0, words := some [] }

/-- **C10.** For every page, `has_images` is true iff the computed
`image_area_ratio` is strictly positive; hence a page whose embedded
images all have zero-area (degenerate) boxes reports `has_images = false`
even though image objects are present (witnessed by `degenImagePage`). -/
theorem has_images_iff_positive_ratio :
    (∀ (idx : Nat) (pg : PageInput),
      (pageStats idx pg).has_images = true ↔ 0 < (pageStats idx pg).image_area_ratio) ∧
    ((pageStats 0 degenImagePage).has_images = false ∧ degenImagePage.images.length = 1) := by
  refine ⟨fun idx pg => ?_, by norm_num [pageStats, degenImagePage], rfl⟩
  simp only [pageStats, gt_iff_lt, decide_eq_true_eq]

/-- The page refuting C7: no images, word extraction raises (so zero
extracted words), yet 50 glyphs. -/
def charsOnlyPage : PageInput :=
  { width := 10, height := 10, images := [], chars := 50, words := none }

/-- **C7 counterexample.** A page with zero images and zero extracted words
(word extraction raised and was recovered as an empty list) but 50 glyphs
has `has_text = true`, while the claim requires `has_text = false` for
every such page. -/
theorem zero_image_zero_word_page_with_chars :
    charsOnlyPage.images = [] ∧ charsOnlyPage.words = none ∧
    (pageStats 0 charsOnlyPage).has_text = true := by
  refine ⟨rfl, rfl, by decide⟩

/-- **C7 as amended.** For every page with zero images and zero extracted
words (a raising `extract_words` is recovered as an empty word list), the
page is neither image-dominant nor text-dominant, and `has_text` is true
iff the glyph count is at least 50 — so `has_text = false` only when the
page also has fewer than `CHAR_MIN_FOR_TEXT` glyphs. -/
theorem zero_image_zero_word_page (idx : Nat) (pg : PageInput)
    (h1 : pg.images = []) (h2 : pg.words.getD [] = []) :
    (pageStats idx pg).image_dominant = false ∧
    (pageStats idx pg).text_dominant = false ∧
    ((pageStats idx pg).has_text = true ↔ pg.chars ≥ 50) := by
  have hw : (match pg.words with
      | some l => l
      | none => ([] : List WordBox)) = [] := by
    cases hpw : pg.words with
    | none => rfl
    | some l => simpa [hpw] using h2
  simp only [pageStats, h1, hw, List.map_nil, List.sum_nil, zero_div,
    IMG_RATIO_SCANNED, CHAR_MIN_FOR_TEXT, TEXT_AREA_MIN_RATIO]
  norm_num

/-- A concrete textless page (no images, raising word extraction, 7
glyphs) for the amended-C7 witness. -/
def fewCharsPage : PageInput :=
  { width := 4, height := 5, images := [], chars := 7, words := none }

/-- Witness for the amended C7 at a concrete textless page. -/
theorem zero_image_zero_word_page_witness :
    (pageStats 3 fewCharsPage).image_dominant = false ∧
    (pageStats 3 fewCharsPage).text_dominant = false ∧
    ((pageStats 3 fewCharsPage).has_text = true ↔ fewCharsPage.chars ≥ 50) :=
  zero_image_zero_word_page 3 fewCharsPage rfl rfl

/-- **C3.** The classification step (the `if n_pages > 0` block, before the
Producer post-adjustment): zero pages leaves the default `("hybrid", "")`;
otherwise `img_dom / n_pages ≥ 0.60` yields `ocr`, else
`txt_dom / n_pages ≥ 0.90` yields `pdfplumber` (the spec's "text-extract"),
else `hybrid`, each with its branch's rationale string.  The last conjunct
ties the step to the profiler: a readable document's final
recommendation/rationale pair is exactly the Producer adjustment applied
to this classification of its page counts. -/
theorem classifier_branches :
    (∀ (img_dom txt_dom : Nat) (mixed : Int),
      classify img_dom txt_dom mixed 0 = ("hybrid", "")) ∧
    (∀ (path orig : Option String) (md : List (String × String)),
      strOptTruthy path = true →
        (profile_pdf_layout path orig (.ok md [])).recommended = "hybrid" ∧
        (profile_pdf_layout path orig (.ok md [])).rationale = "") ∧
    (∀ (img_dom txt_dom : Nat) (mixed : Int) (n_pages : Nat), 0 < n_pages →
      (((img_dom : ℚ) / (n_pages : ℚ) ≥ 0.60 →
        classify img_dom txt_dom mixed n_pages =
          ("ocr", s!"{img_dom}/{n_pages} pages are image-dominant (≥75% image area).")) ∧
      (¬ ((img_dom : ℚ) / (n_pages : ℚ) ≥ 0.60) →
          (txt_dom : ℚ) / (n_pages : ℚ) ≥ 0.90 →
        classify img_dom txt_dom mixed n_pages =
          ("pdfplumber", s!"{txt_dom}/{n_pages} pages have sufficient text density.")) ∧
      (¬ ((img_dom : ℚ) / (n_pages : ℚ) ≥ 0.60) →
          ¬ ((txt_dom : ℚ) / (n_pages : ℚ) ≥ 0.90) →
        classify img_dom txt_dom mixed n_pages =
          ("hybrid",
            s!"Mixed content: image-dominant={img_dom}, text-dominant={txt_dom}, mixed={mixed}.")))) ∧
    (∀ (path orig : Option String) (md : List (String × String)) (pgs : List PageInput),
      strOptTruthy path = true →
        ((profile_pdf_layout path orig (.ok md pgs)).recommended,
          (profile_pdf_layout path orig (.ok md pgs)).rationale) =
          producer_adjust (producerOf md)
            (classify (img_dom_count pgs) (txt_dom_count pgs) (mixed_count pgs) pgs.length)) := by
  refine ⟨fun img_dom txt_dom mixed => by simp [classify], ?_, ?_, ?_⟩
  · intro path orig md h
    constructor <;>
      simp [profile_pdf_layout, h, producer_adjust, img_dom_count, txt_dom_count,
        mixed_count, page_stats_of, classify]
  · intro img_dom txt_dom mixed n_pages hn
    refine ⟨fun h1 => ?_, fun h1 h2 => ?_, fun h1 h2 => ?_⟩
    · simp [classify, hn, h1]
    · simp [classify, hn, h1, h2]
    · simp [classify, hn, h1, h2]
  · intro path orig md pgs h
    simp [profile_pdf_layout, h]

/-- **C4.** The Producer post-adjustment: when the lower-cased document
metadata "Producer" value contains "scan" and the classification step came
out `pdfplumber` (the spec's "text-extract"), the profile's recommendation
is overridden to `hybrid` with the scanner note appended to the rationale;
a classification of `ocr` or `hybrid` is never changed (nor is anything
changed when the producer does not mention "scan"). -/
theorem producer_scan_override :
    (∀ (producer : String) (rr : String × String),
      (hasSubstr producer "scan" = true ∧ rr.1 = "pdfplumber" →
        producer_adjust producer rr = ("hybrid", rr.2 ++ scannerNote)) ∧
      (rr.1 = "ocr" ∨ rr.1 = "hybrid" → producer_adjust producer rr = rr) ∧
      (hasSubstr producer "scan" = false → producer_adjust producer rr = rr)) ∧
    (∀ (path orig : Option String) (md : List (String × String)) (pgs : List PageInput),
      strOptTruthy path = true →
      (hasSubstr (producerOf md) "scan" = true ∧
          (classify (img_dom_count pgs) (txt_dom_count pgs) (mixed_count pgs)
            pgs.length).1 = "pdfplumber" →
        (profile_pdf_layout path orig (.ok md pgs)).recommended = "hybrid" ∧
        (profile_pdf_layout path orig (.ok md pgs)).rationale =
          (classify (img_dom_count pgs) (txt_dom_count pgs) (mixed_count pgs)
            pgs.length).2 ++ scannerNote) ∧
      ((classify (img_dom_count pgs) (txt_dom_count pgs) (mixed_count pgs)
            pgs.length).1 = "ocr" ∨
        (classify (img_dom_count pgs) (txt_dom_count pgs) (mixed_count pgs)
            pgs.length).1 = "hybrid" →
        (profile_pdf_layout path orig (.ok md pgs)).recommended =
          (classify (img_dom_count pgs) (txt_dom_count pgs) (mixed_count pgs)
            pgs.length).1 ∧
        (profile_pdf_layout path orig (.ok md pgs)).rationale =
          (classify (img_dom_count pgs) (txt_dom_count pgs) (mixed_count pgs)
            pgs.length).2)) := by
  have key : ∀ (producer : String) (rr : String × String),
      (hasSubstr producer "scan" = true ∧ rr.1 = "pdfplumber" →
        producer_adjust producer rr = ("hybrid", rr.2 ++ scannerNote)) ∧
      (rr.1 = "ocr" ∨ rr.1 = "hybrid" → producer_adjust producer rr = rr) ∧
      (hasSubstr producer "scan" = false → producer_adjust producer rr = rr) := by
    intro producer rr
    refine ⟨fun h => ?_, fun h => ?_, fun h => ?_⟩
    · simp [producer_adjust, h.1, h.2]
    · rcases h with h | h <;> simp [producer_adjust, h]
    · simp [producer_adjust, h]
  refine ⟨key, ?_⟩
  intro path orig md pgs h
  constructor
  · intro hcond
    have := (key (producerOf md)
      (classify (img_dom_count pgs) (txt_dom_count pgs) (mixed_count pgs) pgs.length)).1 hcond
    constructor <;> simp [profile_pdf_layout, h, this]
  · intro hcond
    have := (key (producerOf md)
      (classify (img_dom_count pgs) (txt_dom_count pgs) (mixed_count pgs) pgs.length)).2.1 hcond
    constructor <;> simp [profile_pdf_layout, h, this]

/-- `get_zip_members` on a readable container with at least one matching
entry runs the member loop and then writes the two count fields. -/
theorem get_zip_members_run (self : TextExtractor) (entries : List ZipEntry) (st : FS)
    (h1 : (entries.filter (fun i => !i.isDir)).isEmpty = false)
    (h2 : ((entries.filter (fun i => !i.isDir)).filter
        (fun i => self.is_valid_member i.filename)).isEmpty = false) :
    get_zip_members self (.ok entries) st =
      ({ (processCandidates {} st ((entries.filter (fun i => !i.isDir)).filter
            (fun i => self.is_valid_member i.filename))).1 with
          ok_files_count := (processCandidates {} st ((entries.filter (fun i => !i.isDir)).filter
            (fun i => self.is_valid_member i.filename))).1.ok_files.length,
          bad_files_count := (processCandidates {} st ((entries.filter (fun i => !i.isDir)).filter
            (fun i => self.is_valid_member i.filename))).1.bad_files.length },
        (processCandidates {} st ((entries.filter (fun i => !i.isDir)).filter
          (fun i => self.is_valid_member i.filename))).2) := by
  simp only [get_zip_members]
  rw [if_neg (fun hc => Bool.false_ne_true (h1 ▸ hc)),
    if_neg (fun hc => Bool.false_ne_true (h2 ▸ hc))]

/-- The default extractor of the example usage: `TextExtractor()`. -/
def api : TextExtractor := mkTextExtractor none none

/-- A single archive entry whose stored checksum does not match its data:
the full read raises `BadZipFile` after the temp file was created. -/
def crcEntry : ZipEntry :=
  { filename := "doc.pdf", isDir := false, file_size := 4, compress_size := 4, crc := 123,
    read := .failDuringCopy "Bad CRC-32 for file doc.pdf" }

/-- An archive entry that streams successfully. -/
def okPdfEntry : ZipEntry :=
  { filename := "b.pdf", isDir := false, file_size := 3, compress_size := 3, crc := 9,
    read := .ok }

/-- **C1 counterexample.** Scanning an archive that opens successfully and
holds exactly one entry with a corrupted checksum puts that entry in `bad`
with a populated error and leaves `ok` empty — but the scan-level error
list is `["doc.pdf: Bad CRC-32 for file doc.pdf"]`, not empty as the claim
requires: the per-member failure is also reported as a scan-level error
string. -/
theorem corrupt_member_scan_errors_nonempty :
    (get_zip_members api (.ok [crcEntry]) {}).1.bad_files = ["doc.pdf"] ∧
    (get_zip_members api (.ok [crcEntry]) {}).1.bad_members.map (fun m => m.error) =
      [some "Bad CRC-32 for file doc.pdf"] ∧
    (get_zip_members api (.ok [crcEntry]) {}).1.ok_files = [] ∧
    (get_zip_members api (.ok [crcEntry]) {}).1.errors =
      ["doc.pdf: Bad CRC-32 for file doc.pdf"] := by
  refine ⟨rfl, rfl, rfl, rfl⟩

/-- **C1 as amended.** For an archive that opens successfully and contains
one matching entry whose full read fails (corrupted checksum), scan
returns that entry in `bad` with a populated error, zero entries in `ok`
— and the scan-level error list contains exactly the one string derived
from that member's failure: per-member failures are also appended to the
scan-level error list. -/
theorem corrupt_member_scan_result (self : TextExtractor) (st : FS) (e : ZipEntry)
    (msg : String) (hdir : e.isDir = false)
    (hvalid : self.is_valid_member e.filename = true)
    (hread : e.read = .failDuringCopy msg) :
    (get_zip_members self (.ok [e]) st).1.ok_members = [] ∧
    (get_zip_members self (.ok [e]) st).1.bad_members =
      [{ mkMember e with error := some msg }] ∧
    (get_zip_members self (.ok [e]) st).1.errors = [memberErrorString e.filename msg] ∧
    (get_zip_members self (.ok [e]) st).1.ok_files_count = 0 ∧
    (get_zip_members self (.ok [e]) st).1.bad_files_count = 1 := by
  simp [get_zip_members, hdir, hvalid, processCandidates, processOne, hread, mkMember]

/-- Witness for the amended C1 at the concrete corrupted-checksum entry. -/
theorem corrupt_member_scan_result_witness :
    (get_zip_members api (.ok [crcEntry]) {}).1.ok_members = [] ∧
    (get_zip_members api (.ok [crcEntry]) {}).1.bad_members =
      [{ mkMember crcEntry with error := some "Bad CRC-32 for file doc.pdf" }] ∧
    (get_zip_members api (.ok [crcEntry]) {}).1.errors =
      [memberErrorString crcEntry.filename "Bad CRC-32 for file doc.pdf"] ∧
    (get_zip_members api (.ok [crcEntry]) {}).1.ok_files_count = 0 ∧
    (get_zip_members api (.ok [crcEntry]) {}).1.bad_files_count = 1 :=
  corrupt_member_scan_result api {} crcEntry "Bad CRC-32 for file doc.pdf" rfl rfl rfl

/-- **C2 counterexample.** `extract` on an existing `.zip` path whose
container cannot be opened returns an `ExtractData` whose `error` sequence
is empty (the claim requires a single container-failure entry there),
even though the scan itself recorded the container failure in the
`ZipData` errors list. -/
theorem extract_drops_archive_diagnostics :
    (extract api "a.zip" true ZipOpenResult.badZipFile {}).1.error = [] ∧
    (extract api "a.zip" true ZipOpenResult.badZipFile {}).1.warning = [] ∧
    (get_zip_members api ZipOpenResult.badZipFile {}).1.errors =
      ["Not a ZIP file or file is severely corrupted."] := by
  refine ⟨rfl, rfl, rfl⟩

/-- **C2 as amended.** A container-level failure surfaces as a single entry
in the scan's `ZipData` errors list, and every per-member failure is
appended to that same list — but none of these archive diagnostics reach
the `ExtractData` that `extract` returns, whose info/warning/error
sequences stay empty for an existing archive path; and one bad member
does not stop processing of the remaining members (every matching entry
is processed into `ok` or `bad`). -/
theorem archive_diagnostics_stay_in_zipdata :
    (∀ (self : TextExtractor) (file_path : String) (z : ZipOpenResult) (st : FS),
      get_extension file_path = ".zip" →
        (extract self file_path true z st).1.error = [] ∧
        (extract self file_path true z st).1.warning = [] ∧
        (extract self file_path true z st).1.info = []) ∧
    (∀ (self : TextExtractor) (st : FS),
      (get_zip_members self .badZipFile st).1.errors.length = 1) ∧
    (∀ (self : TextExtractor) (st : FS) (msg : String),
      (get_zip_members self (.largeZipFile msg) st).1.errors.length = 1) ∧
    (∀ (self : TextExtractor) (st : FS) (msg : String),
      (get_zip_members self (.unexpected msg) st).1.errors.length = 1) ∧
    (∀ (self : TextExtractor) (entries : List ZipEntry) (st : FS),
      (get_zip_members self (.ok entries) st).1.ok_members.length +
          (get_zip_members self (.ok entries) st).1.bad_members.length =
        ((entries.filter (fun i => !i.isDir)).filter
          (fun i => self.is_valid_member i.filename)).length ∧
      (get_zip_members self (.ok entries) st).1.errors =
        ((entries.filter (fun i => !i.isDir)).filter
          (fun i => self.is_valid_member i.filename)).filterMap entryErrorString) := by
  refine ⟨?_, fun self st => rfl, fun self st msg => rfl, fun self st msg => rfl, ?_⟩
  · intro self file_path z st h
    refine ⟨?_, ?_, ?_⟩ <;> simp [extract, h]
  · intro self entries st
    by_cases h1 : (entries.filter (fun i => !i.isDir)).isEmpty
    · have h1' : entries.filter (fun i => !i.isDir) = [] := List.isEmpty_iff.mp h1
      simp [get_zip_members, h1']
    · by_cases h2 : ((entries.filter (fun i => !i.isDir)).filter
          (fun i => self.is_valid_member i.filename)).isEmpty
      · have h2' : (entries.filter (fun i => !i.isDir)).filter
            (fun i => self.is_valid_member i.filename) = [] := List.isEmpty_iff.mp h2
        simp [get_zip_members, h1, h2']
      · have h1' : (entries.filter (fun i => !i.isDir)).isEmpty = false := by
          simpa using h1
        have h2' : ((entries.filter (fun i => !i.isDir)).filter
            (fun i => self.is_valid_member i.filename)).isEmpty = false := by
          simpa using h2
        have hok := processCandidates_ok_names
          ((entries.filter (fun i => !i.isDir)).filter
            (fun i => self.is_valid_member i.filename)) {} st
        have hbad := processCandidates_bad_names
          ((entries.filter (fun i => !i.isDir)).filter
            (fun i => self.is_valid_member i.filename)) {} st
        have herr := processCandidates_errors
          ((entries.filter (fun i => !i.isDir)).filter
            (fun i => self.is_valid_member i.filename)) {} st
        rw [get_zip_members_run self entries st h1' h2']
        constructor
        · have hlok := congrArg List.length hok
          have hlbad := congrArg List.length hbad
          rw [List.length_map] at hlok hlbad
          simp only [List.map_nil, List.nil_append, List.length_map] at hlok hlbad
          show (processCandidates {} st _).1.ok_members.length +
            (processCandidates {} st _).1.bad_members.length = _
          rw [hlok, hlbad]
          exact (List.length_eq_length_filter_add _).symm
        · simpa using herr

/-- **C6.** For every member of every scan result, the temp path is set iff
the checksum was verified by a full successful read; every verified member
has `crc_ok = true`, no error, and a temp file that is on disk when scan
returns; every failed member has `crc_ok = false`, no temp path and a
populated error; and the store after the scan holds exactly the prior
files plus the verified members' temp files — a failed member leaves no
temp file behind. -/
theorem scan_member_temp_invariant (self : TextExtractor) (z : ZipOpenResult) (st : FS)
    (hwf : st.WF) :
    (∀ m ∈ (get_zip_members self z st).1.ok_members ++
        (get_zip_members self z st).1.bad_members,
      m.temp_path.isSome = m.crc_ok) ∧
    (∀ m ∈ (get_zip_members self z st).1.ok_members,
      m.crc_ok = true ∧ m.error = none ∧
        ∃ t, m.temp_path = some t ∧ t ∈ (get_zip_members self z st).2.existing) ∧
    (∀ m ∈ (get_zip_members self z st).1.bad_members,
      m.crc_ok = false ∧ m.temp_path = none ∧ m.error.isSome = true) ∧
    (get_zip_members self z st).2.existing =
      st.existing ++ (get_zip_members self z st).1.ok_members.filterMap
        (fun m => m.temp_path) := by
  have main : ∀ (cands : List ZipEntry),
      (∀ m ∈ (processCandidates {} st cands).1.ok_members ++
          (processCandidates {} st cands).1.bad_members,
        m.temp_path.isSome = m.crc_ok) ∧
      (∀ m ∈ (processCandidates {} st cands).1.ok_members,
        m.crc_ok = true ∧ m.error = none ∧
          ∃ t, m.temp_path = some t ∧ t ∈ (processCandidates {} st cands).2.existing) ∧
      (∀ m ∈ (processCandidates {} st cands).1.bad_members,
        m.crc_ok = false ∧ m.temp_path = none ∧ m.error.isSome = true) ∧
      (processCandidates {} st cands).2.existing =
        st.existing ++ (processCandidates {} st cands).1.ok_members.filterMap
          (fun m => m.temp_path) := by
    intro cands
    obtain ⟨okNew, h1, h2, _⟩ := processCandidates_fs cands {} st hwf
    have hokm : (processCandidates {} st cands).1.ok_members = okNew := by simpa using h1
    have okProps : ∀ m ∈ (processCandidates {} st cands).1.ok_members,
        m.crc_ok = true ∧ m.error = none ∧ ∃ t, m.temp_path = some t := by
      intro m hm
      rcases processCandidates_ok_mem cands {} st m hm with h | h
      · exact absurd h (List.not_mem_nil m)
      · exact h
    have badProps : ∀ m ∈ (processCandidates {} st cands).1.bad_members,
        m.crc_ok = false ∧ m.temp_path = none ∧ m.error.isSome = true := by
      intro m hm
      rcases processCandidates_bad_mem cands {} st m hm with h | h
      · exact absurd h (List.not_mem_nil m)
      · obtain ⟨ha, hb, msg, hc⟩ := h
        exact ⟨ha, hb, by simp [hc]⟩
    refine ⟨?_, ?_, badProps, ?_⟩
    · intro m hm
      rcases List.mem_append.mp hm with h | h
      · obtain ⟨ha, _, t, ht⟩ := okProps m h
        simp [ht, ha]
      · obtain ⟨ha, hb, _⟩ := badProps m h
        simp [hb, ha]
    · intro m hm
      obtain ⟨ha, hb, t, ht⟩ := okProps m hm
      refine ⟨ha, hb, t, ht, ?_⟩
      rw [h2]
      exact List.mem_append.mpr (Or.inr (List.mem_filterMap.mpr
        ⟨m, by rwa [hokm] at hm, ht⟩))
    · rw [h2, hokm]
  cases z with
  | ok entries =>
    by_cases hb1 : (entries.filter (fun i => !i.isDir)).isEmpty = true
    · have h1' := List.isEmpty_iff.mp hb1
      simp [get_zip_members, h1']
    · by_cases hb2 : ((entries.filter (fun i => !i.isDir)).filter
          (fun i => self.is_valid_member i.filename)).isEmpty = true
      · have hb1' : (entries.filter (fun i => !i.isDir)).isEmpty = false := by
          simpa using hb1
        simp only [get_zip_members]
        rw [if_neg (fun hc => Bool.false_ne_true (hb1' ▸ hc)), if_pos hb2]
        simp
      · rw [get_zip_members_run self entries st (by simpa using hb1) (by simpa using hb2)]
        simpa using main ((entries.filter (fun i => !i.isDir)).filter
          (fun i => self.is_valid_member i.filename))
  | badZipFile => simp [get_zip_members]
  | largeZipFile msg => simp [get_zip_members]
  | unexpected msg => simp [get_zip_members]

/-- Witness for C6: a well-formed empty store and a two-entry archive (one
corrupt member, one verified member). -/
theorem scan_member_temp_invariant_witness :
    FS.WF {} ∧
    ((∀ m ∈ (get_zip_members api (.ok [crcEntry, okPdfEntry]) {}).1.ok_members ++
        (get_zip_members api (.ok [crcEntry, okPdfEntry]) {}).1.bad_members,
      m.temp_path.isSome = m.crc_ok) ∧
    (∀ m ∈ (get_zip_members api (.ok [crcEntry, okPdfEntry]) {}).1.ok_members,
      m.crc_ok = true ∧ m.error = none ∧
        ∃ t, m.temp_path = some t ∧
          t ∈ (get_zip_members api (.ok [crcEntry, okPdfEntry]) {}).2.existing) ∧
    (∀ m ∈ (get_zip_members api (.ok [crcEntry, okPdfEntry]) {}).1.bad_members,
      m.crc_ok = false ∧ m.temp_path = none ∧ m.error.isSome = true) ∧
    (get_zip_members api (.ok [crcEntry, okPdfEntry]) {}).2.existing =
      FS.existing {} ++ (get_zip_members api (.ok [crcEntry, okPdfEntry]) {}).1.ok_members.filterMap
        (fun m => m.temp_path)) :=
  ⟨fun i hi => absurd hi (List.not_mem_nil i),
    scan_member_temp_invariant api (.ok [crcEntry, okPdfEntry]) {}
      (fun i hi => absurd hi (List.not_mem_nil i))⟩

/-- **C9.** For every scan of a readable container: every member of the
`ok`/`bad` sequences has a name matching the accepted extension set
(case-insensitively), so non-matching entries appear in neither sequence;
`ok.count + bad.count` equals (hence is at most) the number of matching
non-directory entries; the stored count fields agree with the sequence
lengths; both sequences preserve the archive's directory listing order
(their name lists are sublists of the matching entries' name list in
listing order); and a container with no non-directory entries yields an
empty result with no errors. -/
theorem scan_extension_filter_and_order (self : TextExtractor) (entries : List ZipEntry)
    (st : FS) :
    (∀ m ∈ (get_zip_members self (.ok entries) st).1.ok_members ++
        (get_zip_members self (.ok entries) st).1.bad_members,
      self.is_valid_member m.name = true) ∧
    (∀ e ∈ entries, self.is_valid_member e.filename = false →
      ∀ m ∈ (get_zip_members self (.ok entries) st).1.ok_members ++
          (get_zip_members self (.ok entries) st).1.bad_members,
        m.name ≠ e.filename) ∧
    ((get_zip_members self (.ok entries) st).1.ok_members.length +
        (get_zip_members self (.ok entries) st).1.bad_members.length =
      ((entries.filter (fun i => !i.isDir)).filter
        (fun i => self.is_valid_member i.filename)).length) ∧
    ((get_zip_members self (.ok entries) st).1.ok_files_count =
        (get_zip_members self (.ok entries) st).1.ok_members.length ∧
      (get_zip_members self (.ok entries) st).1.bad_files_count =
        (get_zip_members self (.ok entries) st).1.bad_members.length) ∧
    ((get_zip_members self (.ok entries) st).1.ok_members.map (fun m => m.name)).Sublist
      (((entries.filter (fun i => !i.isDir)).filter
        (fun i => self.is_valid_member i.filename)).map (fun i => i.filename)) ∧
    ((get_zip_members self (.ok entries) st).1.bad_members.map (fun m => m.name)).Sublist
      (((entries.filter (fun i => !i.isDir)).filter
        (fun i => self.is_valid_member i.filename)).map (fun i => i.filename)) ∧
    (entries.filter (fun i => !i.isDir) = [] →
      get_zip_members self (.ok entries) st = ({}, st)) := by
  by_cases hb1 : (entries.filter (fun i => !i.isDir)).isEmpty = true
  · have h1' := List.isEmpty_iff.mp hb1
    simp [get_zip_members, h1']
  · have hb1' : (entries.filter (fun i => !i.isDir)).isEmpty = false := by simpa using hb1
    by_cases hb2 : ((entries.filter (fun i => !i.isDir)).filter
        (fun i => self.is_valid_member i.filename)).isEmpty = true
    · have h2' := List.isEmpty_iff.mp hb2
      have hgz : get_zip_members self (.ok entries) st = ({}, st) := by
        simp only [get_zip_members]
        rw [if_neg (fun hc => Bool.false_ne_true (hb1' ▸ hc)), if_pos hb2]
      rw [hgz]
      simp [h2']
    · have hb2' : ((entries.filter (fun i => !i.isDir)).filter
          (fun i => self.is_valid_member i.filename)).isEmpty = false := by simpa using hb2
      have hok := processCandidates_ok_names
        ((entries.filter (fun i => !i.isDir)).filter
          (fun i => self.is_valid_member i.filename)) {} st
      have hbad := processCandidates_bad_names
        ((entries.filter (fun i => !i.isDir)).filter
          (fun i => self.is_valid_member i.filename)) {} st
      have hokf := processCandidates_ok_files
        ((entries.filter (fun i => !i.isDir)).filter
          (fun i => self.is_valid_member i.filename)) {} st
      have hbadf := processCandidates_bad_files
        ((entries.filter (fun i => !i.isDir)).filter
          (fun i => self.is_valid_member i.filename)) {} st
      simp only [List.map_nil, List.nil_append] at hok hbad hokf hbadf
      have hnameValid : ∀ m ∈ (processCandidates {} st
          ((entries.filter (fun i => !i.isDir)).filter
            (fun i => self.is_valid_member i.filename))).1.ok_members ++
          (processCandidates {} st ((entries.filter (fun i => !i.isDir)).filter
            (fun i => self.is_valid_member i.filename))).1.bad_members,
          self.is_valid_member m.name = true := by
        intro m hm
        have hname : m.name ∈ (((entries.filter (fun i => !i.isDir)).filter
            (fun i => self.is_valid_member i.filename)).map (fun i => i.filename)) := by
          rcases List.mem_append.mp hm with h | h
          · have : m.name ∈ (processCandidates {} st
                ((entries.filter (fun i => !i.isDir)).filter
                  (fun i => self.is_valid_member i.filename))).1.ok_members.map
                  (fun m => m.name) :=
              List.mem_map.mpr ⟨m, h, rfl⟩
            rw [hok] at this
            exact (List.Sublist.map (fun (i : ZipEntry) => i.filename)
              (List.filter_sublist _)).mem this
          · have : m.name ∈ (processCandidates {} st
                ((entries.filter (fun i => !i.isDir)).filter
                  (fun i => self.is_valid_member i.filename))).1.bad_members.map
                  (fun m => m.name) :=
              List.mem_map.mpr ⟨m, h, rfl⟩
            rw [hbad] at this
            exact (List.Sublist.map (fun (i : ZipEntry) => i.filename)
              (List.filter_sublist _)).mem this
        obtain ⟨i, hi, hieq⟩ := List.mem_map.mp hname
        have hv := List.of_mem_filter hi
        rw [← hieq]
        simpa using hv
      rw [get_zip_members_run self entries st hb1' hb2']
      refine ⟨?_, ?_, ?_, ?_, ?_, ?_, ?_⟩
      · simpa using hnameValid
      · intro e _ hbadext m hm hne
        have := hnameValid m (by simpa using hm)
        rw [hne, hbadext] at this
        exact Bool.false_ne_true this
      · have hlok := congrArg List.length hok
        have hlbad := congrArg List.length hbad
        rw [List.length_map, List.length_map] at hlok hlbad
        show (processCandidates {} st _).1.ok_members.length +
          (processCandidates {} st _).1.bad_members.length = _
        rw [hlok, hlbad]
        exact (List.length_eq_length_filter_add _).symm
      · constructor
        · show (processCandidates {} st _).1.ok_files.length = _
          rw [hokf]
          have := congrArg List.length hok
          rw [List.length_map, List.length_map] at this
          simpa using this.symm
        · show (processCandidates {} st _).1.bad_files.length = _
          rw [hbadf]
          have := congrArg List.length hbad
          rw [List.length_map, List.length_map] at this
          simpa using this.symm
      · show ((processCandidates {} st _).1.ok_members.map (fun m => m.name)).Sublist _
        rw [hok]
        exact List.Sublist.map (fun (i : ZipEntry) => i.filename) (List.filter_sublist _)
      · show ((processCandidates {} st _).1.bad_members.map (fun m => m.name)).Sublist _
        rw [hbad]
        exact List.Sublist.map (fun (i : ZipEntry) => i.filename) (List.filter_sublist _)
      · intro h
        rw [h] at hb1'
        simp at hb1'

end OcrSys
